import Mathlib

/-!
Verification of the asynchronous video-generation orchestrator
(`backend/src/services/socialMediaService.js`, `backend/src/models/Video.js`).

The JavaScript source is shallowly embedded: timestamps are `Nat`
milliseconds, Mongo documents are Lean structures, asynchronous calls to
Google Cloud are explicit parameters (an operation-status oracle and an
object-storage value), and JS exceptions are explicit result fields.
-/

/-- Job lifecycle status: the `status` enum of `videoSchema`
(`pending | processing | completed | failed`). -/
inductive Status
  | pending
  | processing
  | completed
  | failed
deriving DecidableEq, Repr

/-- A signed read URL as produced by `file.getSignedUrl({action:'read', expires})`.
The code treats the URL as an opaque string; we model it as the object path
together with the expiry timestamp it was signed with (the two data the
string determines). -/
structure SignedUrl where
  path : String
  expires : Nat
deriving DecidableEq, Repr

/-- One object of a bucket listing (`bucket.getFiles`): its name and its
`metadata.timeCreated` timestamp. -/
structure GFile where
  name : String
  timeCreated : Nat
deriving DecidableEq, Repr

/-- Object metadata as returned by `file.getMetadata()`: `size` and
`contentType` (which may be absent). -/
structure FileMeta where
  size : Nat
  contentType : Option String
deriving DecidableEq, Repr

/-- The object-storage bucket: the list of objects and a metadata table
keyed by object path. -/
structure Storage where
  files : List GFile
  meta : List (String × FileMeta)
deriving DecidableEq, Repr

/-- Models `file.getMetadata()` for the object at path `p` (`none`: the lookup
rejects, e.g. no such object). -/
def Storage.getMetadata (s : Storage) (p : String) : Option FileMeta :=
  s.meta.lookup p

/-- Models `file.exists()` for the object at path `p`. -/
def Storage.objectExists (s : Storage) (p : String) : Bool :=
  s.files.any (fun f => f.name == p)

/-- Models `file.delete()`: removes the object at path `p` (GCS object names are
unique within a bucket). -/
def Storage.deleteObject (s : Storage) (p : String) : Storage :=
  { files := s.files.filter (fun f => f.name != p),
    meta := s.meta.filter (fun e => e.1 != p) }

/-- The `error` payload of a long-running operation (`operation.error`); its
`message` property may be absent. -/
structure ErrPayload where
  message : Option String
deriving DecidableEq, Repr

/-- The `response` payload of a long-running operation: the output location may
appear under `videoUri` or under `outputUri`. -/
structure OpResponse where
  videoUri : Option String
  outputUri : Option String
deriving DecidableEq, Repr

/-- The status object returned by `checkOperationStatus` (and the mock built
from a bucket hit): `done`, `response`, `error`. The `metadata` property is
also returned by the code but never consulted by the orchestrator, so it is
omitted from the model. -/
structure OperationStatus where
  done : Bool
  response : Option OpResponse
  error : Option ErrPayload
deriving DecidableEq, Repr

/-- The `operation` subdocument of `videoSchema`: paths `name`, `done`,
`metadata`, `response`, `error` (again `metadata` is never read and is
omitted). -/
structure OperationRec where
  name : Option String
  done : Bool
  response : Option OpResponse
  error : Option ErrPayload
deriving DecidableEq, Repr

/-- The fresh `operation` subdocument of a newly created Video
(only `done` has a schema default). -/
def OperationRec.initial : OperationRec :=
  { name := none, done := false, response := none, error := none }

/-- The `video` subdocument of `videoSchema`: the persisted artifact. The
legacy fields `duration`, `resolution`, `localPath` and `data` (pre-GCS
storage systems) are never written by the orchestrator and are omitted. -/
structure VideoArtifact where
  url : Option SignedUrl
  urlExpiry : Option Nat
  filename : Option String
  size : Option Nat
  gcsUri : Option String
  contentType : Option String
deriving DecidableEq, Repr

/-- The artifact subdocument of a freshly created Video: nothing set. -/
def VideoArtifact.empty : VideoArtifact :=
  { url := none, urlExpiry := none, filename := none, size := none,
    gcsUri := none, contentType := none }

/-- The `processingInfo` subdocument: audit trail. `retryCount` has a schema
default of 0 but is never read or written by the orchestrator, so it is
omitted. -/
structure ProcessingInfo where
  startedAt : Option Nat
  completedAt : Option Nat
  errorMessage : Option String
deriving DecidableEq, Repr

/-- The `inputImage` subdocument (image-to-video input reference). -/
structure InputImage where
  gcsUri : Option String
  mimetype : Option String
deriving DecidableEq, Repr

/-- A Video document restricted to the fields the orchestrator reads or
writes. `user` is the owner id, `views` the view counter bumped by
`getVideoData`. Request fields (title, prompt, generation parameters) are
immutable inputs of `generateVideo` and do not appear in any claim, so they
are not carried here. -/
structure Job where
  user : Nat
  isPrivate : Bool
  status : Status
  video : VideoArtifact
  operation : OperationRec
  inputImage : Option InputImage
  processingInfo : ProcessingInfo
  views : Nat
deriving DecidableEq, Repr

/-- Method `videoSchema.methods.updateStatus(status, additionalData)`: sets `status`
and maintains `processingInfo`. `errMsg` models
`additionalData.errorMessage`, absent when the caller passes no data. -/
def Job.updateStatus (j : Job) (s : Status) (now : Nat) (errMsg : Option String) : Job :=
  let j1 : Job := { j with status := s }
  if s = Status.processing ∧ j1.processingInfo.startedAt = none then
    { j1 with processingInfo := { j1.processingInfo with startedAt := some now } }
  else if s = Status.completed then
    { j1 with processingInfo := { j1.processingInfo with completedAt := some now } }
  else if s = Status.failed then
    { j1 with processingInfo := { j1.processingInfo with errorMessage := errMsg } }
  else
    j1

/-- The configured bucket name (`process.env.GOOGLE_CLOUD_BUCKET_NAME`),
environment configuration modeled as a fixed constant; no claim depends on
its value. -/
def BUCKET_NAME : String := "bn"

/-- The output directory used as the listing parameter in
`checkVideoInBucket` (`getFiles({prefix: 'generated-videos/'})`). -/
def generatedVideosDir : String := "generated-videos/"

/-- Test whether an object name falls under the listing directory: the
`prefix` parameter of `bucket.getFiles` as applied by the storage
service. -/
def underOutputDir (name : String) : Bool :=
  generatedVideosDir.data.isPrefixOf name.data

/-- Builds `gs://BUCKET_NAME/name`, the storage URI the service builds for an
object. -/
def mkGsUri (name : String) : String :=
  "gs://" ++ BUCKET_NAME ++ "/" ++ name

/-- JS `String.prototype.replace` with a string pattern: replaces the first
occurrence of `pat` only (character-list form). -/
def replaceFirstAux (pat : List Char) : List Char → List Char
  | [] => if pat.isPrefixOf ([] : List Char) then [] else []
  | c :: rest =>
    if pat.isPrefixOf (c :: rest) then (c :: rest).drop pat.length
    else c :: replaceFirstAux pat rest

/-- Models `uri.replace("gs://BUCKET_NAME/", "")`: strips the bucket URI scheme,
yielding the object path (JS `replace` with a string pattern removes the
first occurrence only). -/
def gsObjectPath (uri : String) : String :=
  String.mk (replaceFirstAux ("gs://" ++ BUCKET_NAME ++ "/").data uri.data)

/-- Helper of `basename`: the characters after the last `'/'`. -/
def basenameAux (acc : List Char) : List Char → List Char
  | [] => acc
  | c :: rest => if c = '/' then basenameAux [] rest else basenameAux (acc ++ [c]) rest

/-- Node `path.basename` (object paths never carry a trailing slash). -/
def basename (p : String) : String :=
  String.mk (basenameAux [] p.data)

/-- Constant `7 * 24 * 60 * 60 * 1000` ms: the signed-URL validity window. -/
def sevenDaysMs : Nat := 7 * 24 * 60 * 60 * 1000

/-- Models `file.getSignedUrl({action:'read', expires})`. -/
def getSignedUrl (p : String) (expires : Nat) : SignedUrl :=
  { path := p, expires := expires }

/-- JS `a || d` for a string `a` that may be absent: an absent or empty
string falls back to the default. -/
def jsOr (a : Option String) (d : String) : String :=
  match a with
  | some v => if v = "" then d else v
  | none => d

/-- JS `a || b` where both are possibly-absent strings
(`status.response?.videoUri || status.response?.outputUri`). -/
def jsOrOpt (a b : Option String) : Option String :=
  match a with
  | some v => if v = "" then b else some v
  | none => b

/-- Computable substring containment on character lists (JS
`String.prototype.includes`). -/
def listContains (pat : List Char) : List Char → Bool
  | [] => pat.isPrefixOf ([] : List Char)
  | c :: rest => pat.isPrefixOf (c :: rest) || listContains pat rest

/-- The `'.mp4'`/`'.mov'` test of `checkVideoInBucket`
(`file.name.includes('.mp4') || file.name.includes('.mov')`): substring
containment, exactly as the code tests it. -/
def isVideoFileName (n : String) : Bool :=
  listContains ".mp4".data n.data || listContains ".mov".data n.data

/-- The heuristic score of `checkVideoInBucket`:
`1 / (|fileTime - startTime| + 1)` (higher for creation times closer to the
job's start). -/
def matchScore (startedAt fileTime : Nat) : ℚ :=
  1 / ((((fileTime : Int) - (startedAt : Int)).natAbs : ℚ) + 1)

/-- One step of the best-match accumulation loop of `checkVideoInBucket`:
skip non-video names and objects created before the start time, otherwise
keep the strictly higher-scoring object. -/
def bestStep (startedAt : Nat) (acc : Option GFile × ℚ) (f : GFile) : Option GFile × ℚ :=
  if isVideoFileName f.name then
    if startedAt ≤ f.timeCreated then
      let s := matchScore startedAt f.timeCreated
      if acc.2 < s then (some f, s) else acc
    else acc
  else acc

/-- The whole best-match loop (`bestMatch = null`, `bestMatchScore = 0`
initial accumulator). -/
def bestFold (startedAt : Nat) (l : List GFile) : Option GFile × ℚ :=
  l.foldl (bestStep startedAt) (none, 0)

/-- `VideoGenerationService.checkVideoInBucket`: list the objects under
`generated-videos/`, keep video-named objects created at or after
`processingInfo.startedAt`, score each by closeness of creation time to the
start time and return the `gs://` URI of the best match, or `null` when the
job has no `startedAt` or nothing qualifies. -/
def checkVideoInBucket (storage : Storage) (j : Job) : Option String :=
  match j.processingInfo.startedAt with
  | none => none
  | some startedAt =>
    let files := storage.files.filter (fun f => underOutputDir f.name)
    match (bestFold startedAt files).1 with
    | some f => some (mkGsUri f.name)
    | none => none

/-- Models `VideoGenerationService.cleanupTemporaryImage(gcsUri)`: delete the
transient input object if it still exists; never raises (cleanup errors are
swallowed). Returns the storage afterwards and whether a delete was
performed. -/
def cleanupTemporaryImage (storage : Storage) (gcsUri : Option String) : Storage × Bool :=
  match gcsUri with
  | none => (storage, false)
  | some uri =>
    if uri = "" then (storage, false)
    else
      let p := gsObjectPath uri
      if storage.objectExists p then (storage.deleteObject p, true)
      else (storage, false)

/-- Everything observable about one run of `handleSuccessfulGeneration`:
the persisted job, the storage afterwards, whether `cleanupTemporaryImage`
was invoked, whether it actually deleted the input object, and the message
of the rethrown exception when the handler failed (its `catch` marks the
job `failed` and then rethrows). -/
structure HSGOut where
  job : Job
  storage : Storage
  cleanupInvoked : Bool
  deletedInput : Bool
  thrown : Option String
deriving DecidableEq, Repr

/-- The error message `file.getMetadata()` rejects with when the object is
missing; the exact text is irrelevant to every claim. -/
def noSuchObjectMsg : String := "No such object"

/-- Models `VideoGenerationService.handleSuccessfulGeneration(video, status)`:
extract the output URI (`response.videoUri || response.outputUri`), read the
object's metadata, sign a 7-day read URL, overwrite the `video` artifact
subdocument, `updateStatus('completed')`, then clean up the transient input
image when one is referenced. Any failure is caught: the job is marked
`failed` with the error message and the error is rethrown. -/
def handleSuccessfulGeneration (storage : Storage) (now : Nat) (j : Job)
    (status : OperationStatus) : HSGOut :=
  let videoUri? : Option String :=
    match status.response with
    | none => none
    | some r => jsOrOpt r.videoUri r.outputUri
  match videoUri? with
  | none =>
    { job := j.updateStatus Status.failed now (some "No video URI in response"),
      storage := storage, cleanupInvoked := false, deletedInput := false,
      thrown := some "No video URI in response" }
  | some videoUri =>
    let gcsPath := gsObjectPath videoUri
    match storage.getMetadata gcsPath with
    | none =>
      { job := j.updateStatus Status.failed now (some noSuchObjectMsg),
        storage := storage, cleanupInvoked := false, deletedInput := false,
        thrown := some noSuchObjectMsg }
    | some md =>
      let su := getSignedUrl gcsPath (now + sevenDaysMs)
      let art : VideoArtifact :=
        { j.video with
          gcsUri := some videoUri,
          url := some su,
          urlExpiry := some (now + sevenDaysMs),
          filename := some (basename gcsPath),
          size := some md.size,
          contentType := some (jsOr md.contentType "video/mp4") }
      let j2 := (Job.updateStatus { j with video := art } Status.completed now none)
      match j2.inputImage with
      | some img =>
        match img.gcsUri with
        | some iuri =>
          if iuri = "" then
            { job := j2, storage := storage, cleanupInvoked := false,
              deletedInput := false, thrown := none }
          else
            let cl := cleanupTemporaryImage storage (some iuri)
            { job := j2, storage := cl.1, cleanupInvoked := true,
              deletedInput := cl.2, thrown := none }
        | none =>
          { job := j2, storage := storage, cleanupInvoked := false,
            deletedInput := false, thrown := none }
      | none =>
        { job := j2, storage := storage, cleanupInvoked := false,
          deletedInput := false, thrown := none }

/-- The mock success status built from a bucket hit
(`{done: true, response: {videoUri: bucketVideoUri}}`). -/
def mockSuccessStatus (uri : String) : OperationStatus :=
  { done := true, response := some { videoUri := some uri, outputUri := none },
    error := none }

/-- Computes `error.message || 'Video generation failed'` for a truthy operation
error payload. -/
def errMessageOr (e : ErrPayload) : String :=
  jsOr e.message "Video generation failed"

/-- Models `video.operation = { ...video.operation, ...operationStatus }`: the
spread of the status object overwrites `done`, `response` and `error`
(those keys are always present on the status object) and keeps `name`. -/
def mergeOperation (r : OperationRec) (s : OperationStatus) : OperationRec :=
  { r with done := s.done, response := s.response, error := s.error }

/-- The external world as seen by the poll loop, indexed by iteration
number: the result of `checkOperationStatus` (`none` models a transport
error, which the inner `catch` swallows with a warning), the storage
contents, and the wall-clock time of the iteration. -/
structure PollEnv where
  opStatus : Nat → Option OperationStatus
  storageAt : Nat → Storage
  timeAt : Nat → Nat

/-- Outcome of one run of the `try` body of a poll iteration, carrying the
persisted DB record (`none`: the record was deleted). -/
inductive TryResult
  /-- Fell through to the sleep: `attempts` will be incremented. -/
  | ok (j : Option Job)
  /-- Exited by `break` after a successful `handleSuccessfulGeneration`. -/
  | finished (j : Option Job)
  /-- An exception reached the loop's `catch`. -/
  | exc (j : Option Job) (msg : String)
deriving DecidableEq, Repr

/-- Shared tail of a poll iteration: the bucket fallback. If
`checkVideoInBucket` yields a URI, complete via the mock status (a failure
inside the handler is rethrown to the loop's `catch`); otherwise fall
through to the sleep. -/
def pollBucketPhase (env : PollEnv) (tick : Nat) (video : Job) : TryResult :=
  match checkVideoInBucket (env.storageAt tick) video with
  | some uri =>
    let out := handleSuccessfulGeneration (env.storageAt tick) (env.timeAt tick)
      video (mockSuccessStatus uri)
    match out.thrown with
    | some m => TryResult.exc (some out.job) m
    | none => TryResult.finished (some out.job)
  | none => TryResult.ok (some video)

/-- The `try` body of one iteration of `pollForCompletion`: fetch the
record (missing record: exception), query the operation status when an
operation name is present (transport errors swallowed; a received status is
merged into `operation` and saved), handle `done` statuses (error payload:
mark `failed` with the provider message and throw; success payload: hand to
the completion handler and `break`), otherwise run the bucket fallback. -/
def pollIterTry (env : PollEnv) (tick : Nat) (jdb : Option Job) : TryResult :=
  match jdb with
  | none => TryResult.exc none "Video not found"
  | some video0 =>
    let queried : Option OperationStatus :=
      match video0.operation.name with
      | some n => if n = "" then none else env.opStatus tick
      | none => none
    let video : Job :=
      match queried with
      | some s => { video0 with operation := mergeOperation video0.operation s }
      | none => video0
    match queried with
    | some s =>
      if s.done then
        match s.error with
        | some e =>
          let msg := errMessageOr e
          TryResult.exc (some (video.updateStatus Status.failed (env.timeAt tick) (some msg))) msg
        | none =>
          let out := handleSuccessfulGeneration (env.storageAt tick) (env.timeAt tick) video s
          match out.thrown with
          | some m => TryResult.exc (some out.job) m
          | none => TryResult.finished (some out.job)
      else pollBucketPhase env tick video
    | none => pollBucketPhase env tick video

/-- How `pollForCompletion` returned. -/
inductive PollOutcome
  /-- The `while (attempts < maxAttempts)` condition became false: the
  function returns without any terminal write. -/
  | loopExited
  /-- Exited by `break` after a successful completion. -/
  | completedBreak
  /-- An exception propagated out of the function. -/
  | threw (msg : String)
deriving DecidableEq, Repr

/-- The `while` loop of `pollForCompletion`, with explicit `fuel` since the
source loop need not terminate (`attempts` is only incremented on the
non-error path): `none` means the loop is still running after `fuel`
iterations. `tick` numbers the iterations for the environment. The `catch`
branch marks the job `failed 'Operation timed out'` and throws only when
`attempts >= maxAttempts - 1`; otherwise it just continues without
incrementing `attempts`. -/
def pollLoop (env : PollEnv) (maxAttempts : Nat) :
    Nat → Nat → Nat → Option Job → Option (Option Job × PollOutcome)
  | 0, _, _, _ => none
  | fuel + 1, attempts, tick, jdb =>
    if attempts < maxAttempts then
      match pollIterTry env tick jdb with
      | TryResult.ok j => pollLoop env maxAttempts fuel (attempts + 1) (tick + 1) j
      | TryResult.finished j => some (j, PollOutcome.completedBreak)
      | TryResult.exc j _ =>
        if maxAttempts - 1 ≤ attempts then
          match j with
          | some v =>
            some (some (v.updateStatus Status.failed (env.timeAt tick) (some "Operation timed out")),
              PollOutcome.threw "Video generation timed out")
          | none => some (none, PollOutcome.threw "Video generation timed out")
        else pollLoop env maxAttempts fuel attempts (tick + 1) j
    else some (jdb, PollOutcome.loopExited)

/-- Models `VideoGenerationService.pollForCompletion(videoId, maxAttempts = 60)`:
the loop started with `attempts = 0`. -/
def pollForCompletion (env : PollEnv) (maxAttempts fuel : Nat) (jdb : Option Job) :
    Option (Option Job × PollOutcome) :=
  pollLoop env maxAttempts fuel 0 0 jdb

/-- The object `generateVideo` returns on success: keys `operationName`,
`done`, `metadata`, `response` (note the key is `operationName`, not
`name`). -/
structure GenVideoResult where
  operationName : Option String
  done : Bool
  response : Option OpResponse
deriving DecidableEq, Repr

/-- The assignment `video.operation = operation` in
`processVideoGeneration`, under the Video schema: the `operation`
subdocument declares paths `name/done/metadata/response/error`; the
incoming object's `operationName` key matches no schema path and is dropped
(Mongoose strict mode), so `name` is left unset and the submitted
operation's handle is lost. -/
def assignOperation (g : GenVideoResult) : OperationRec :=
  { name := none, done := g.done, response := g.response, error := none }

/-- The world as seen by `processVideoGeneration`: the outcome of the
`generateVideo` submission (`Except.error`: the request threw, carrying the
built `Video generation failed: ...` message), the wall-clock time of the
pre-poll steps, and the poll environment with its budget and fuel. -/
structure ProcessEnv where
  submit : Except String GenVideoResult
  now0 : Nat
  poll : PollEnv
  maxAttempts : Nat
  fuel : Nat

/-- Everything observable about one run of `processVideoGeneration`:
`persisted` are the DB states written before polling begins (the
`updateStatus('processing')` save, then the save after `video.operation`
is assigned), `pollStart` the DB state the poll loop starts from (absent
when submission failed), and `final` the last persisted state (`none` when
the poll loop was still running at the end of the fuel). -/
structure ProcessResult where
  persisted : List Job
  pollStart : Option Job
  final : Option Job
deriving DecidableEq, Repr

/-- Models `VideoGenerationService.processVideoGeneration(videoId)`: mark the job
`processing`, submit via `generateVideo`, store the returned operation
object, then poll. The surrounding `catch` marks the job `failed` with the
error message and cleans up the transient input image; it receives both
submission errors and exceptions propagating out of the poll loop. -/
def processVideoGeneration (env : ProcessEnv) (j0 : Job) : ProcessResult :=
  let s1 := j0.updateStatus Status.processing env.now0 none
  match env.submit with
  | Except.error msg =>
    let s2 := s1.updateStatus Status.failed env.now0 (some msg)
    { persisted := [s1, s2], pollStart := none, final := some s2 }
  | Except.ok g =>
    let s2 : Job := { s1 with operation := assignOperation g }
    match pollForCompletion env.poll env.maxAttempts env.fuel (some s2) with
    | none => { persisted := [s1, s2], pollStart := some s2, final := none }
    | some (j, out) =>
      match out with
      | PollOutcome.threw m =>
        let jf : Option Job :=
          match j with
          | some v => some (v.updateStatus Status.failed env.now0 (some m))
          | none => none
        { persisted := [s1, s2], pollStart := some s2, final := jf }
      | _ => { persisted := [s1, s2], pollStart := some s2, final := j }

/-- Models `VideoGenerationService.refreshSignedUrl(video)`: when the job has no
durable `gcsUri` (or storage is unconfigured) the cached — possibly stale —
`video.url` is returned unchanged; otherwise a fresh 7-day signed URL is
generated, written to `video.url`/`video.urlExpiry`, saved, and returned. -/
def refreshSignedUrl (now : Nat) (j : Job) : Job × Option SignedUrl :=
  match j.video.gcsUri with
  | none => (j, j.video.url)
  | some uri =>
    if uri = "" then (j, j.video.url)
    else
      let p := gsObjectPath uri
      let su := getSignedUrl p (now + sevenDaysMs)
      ({ j with video := { j.video with url := some su, urlExpiry := some (now + sevenDaysMs) } },
        some su)

/-- What `getVideoData` answers (restricted to the signed-URL system; the
legacy in-Mongo binary and local-file fallbacks are never populated by the
orchestrator and are modeled by the final not-found error). -/
inductive VideoDataResult
  /-- The `redirectUrl` answer: URL, content type, filename, size. -/
  | redirect (url : Option SignedUrl) (contentType : String)
      (filename : Option String) (size : Option Nat)
  /-- A thrown error. -/
  | err (msg : String)
deriving DecidableEq, Repr

/-- Computes `video.video.contentType || 'video/mp4'`. -/
def contentTypeOr (c : Option String) : String := jsOr c "video/mp4"

/-- Models `VideoGenerationService.getVideoData(videoId, userId)`: owner check,
then — when a signed URL is stored — an expiry check with refresh-on-read
(`new Date() > urlExpiry`), a view-count increment and the redirect
answer. -/
def getVideoData (now : Nat) (userId : Nat) (j : Job) : Job × VideoDataResult :=
  if j.user ≠ userId ∧ j.isPrivate then (j, VideoDataResult.err "Access denied")
  else
    match j.video.url with
    | some u =>
      let expired : Bool :=
        match j.video.urlExpiry with
        | some e => decide (e < now)
        | none => false
      if expired then
        let r := refreshSignedUrl now j
        let j2 : Job := { r.1 with views := r.1.views + 1 }
        (j2, VideoDataResult.redirect r.2 (contentTypeOr r.1.video.contentType)
          r.1.video.filename r.1.video.size)
      else
        let j2 : Job := { j with views := j.views + 1 }
        (j2, VideoDataResult.redirect (some u) (contentTypeOr j.video.contentType)
          j.video.filename j.video.size)
    | none =>
      (j, VideoDataResult.err "Video data not found - no URL, binary data, or local file available")

/-- The body of the per-job loop of `checkAndCompleteStuckVideos` for one
video in `processing`: bucket check, and on a hit the completion handler
(whose per-job `catch` swallows a rethrow, in which case the job is not
counted). Returns the job, the storage and whether `completedCount` was
incremented. -/
def sweepJob (now : Nat) (storage : Storage) (j : Job) : Job × Storage × Bool :=
  match checkVideoInBucket storage j with
  | some uri =>
    let out := handleSuccessfulGeneration storage now j (mockSuccessStatus uri)
    (out.job, out.storage, out.thrown.isNone)
  | none => (j, storage, false)

/-- The iteration of `checkAndCompleteStuckVideos` over the job store:
only jobs found by `Video.find({status:'processing'})` are touched. -/
def sweepGo (now : Nat) : List Job → Storage → List Job × Storage × Nat
  | [], st => ([], st, 0)
  | j :: rest, st =>
    if j.status = Status.processing then
      let r := sweepJob now st j
      let rec' := sweepGo now rest r.2.1
      (r.1 :: rec'.1, rec'.2.1, (if r.2.2 then 1 else 0) + rec'.2.2)
    else
      let rec' := sweepGo now rest st
      (j :: rec'.1, rec'.2.1, rec'.2.2)

/-- Models `VideoGenerationService.checkAndCompleteStuckVideos()`: sweep every
`processing` job through the bucket heuristic and return
`{completedCount, totalProcessing}` alongside the updated store and
storage. -/
def checkAndCompleteStuckVideos (now : Nat) (storage : Storage) (jobs : List Job) :
    List Job × Storage × Nat × Nat :=
  let r := sweepGo now jobs storage
  (r.1, r.2.1, r.2.2, (jobs.filter (fun j => decide (j.status = Status.processing))).length)

/-- What `forceCompletionCheck` answers. -/
inductive ForceResult
  /-- Threw `'Video not found'`. -/
  | notFound
  /-- Answered `'Video is not in processing state'` with the job's current status. -/
  | notProcessing (st : Status)
  /-- Answered `'Video completed successfully'`. -/
  | completedOk
  /-- Answered `'Video not found in bucket, still processing'`. -/
  | stillProcessing
  /-- The completion handler rethrew; the error propagates out. -/
  | errored (msg : String)
deriving DecidableEq, Repr

/-- Models `VideoGenerationService.forceCompletionCheck(videoId)`: jobs not in
`processing` are answered immediately with their current status and nothing
is touched; for a `processing` job the bucket heuristic runs and, on a hit,
the completion handler. -/
def forceCompletionCheck (now : Nat) (storage : Storage) (jdb : Option Job) :
    Option Job × Storage × ForceResult :=
  match jdb with
  | none => (none, storage, ForceResult.notFound)
  | some video =>
    if video.status ≠ Status.processing then
      (some video, storage, ForceResult.notProcessing video.status)
    else
      match checkVideoInBucket storage video with
      | some uri =>
        let out := handleSuccessfulGeneration storage now video (mockSuccessStatus uri)
        match out.thrown with
        | some m => (some out.job, out.storage, ForceResult.errored m)
        | none => (some out.job, out.storage, ForceResult.completedOk)
      | none => (some video, storage, ForceResult.stillProcessing)

/-- The candidate predicate of the bucket heuristic, over the full bucket
listing: under the listing directory, named like a video file, and created
at or after the job's start time. -/
def isCandidate (startedAt : Nat) (f : GFile) : Bool :=
  underOutputDir f.name && isVideoFileName f.name
    && decide (startedAt ≤ f.timeCreated)

/-- The in-loop candidate test (the listing has already applied the
directory filter): video-named and created at or after the start time. -/
def isLoopCandidate (startedAt : Nat) (f : GFile) : Bool :=
  isVideoFileName f.name && decide (startedAt ≤ f.timeCreated)

/-- Invariant of the best-match accumulator after scanning `seen`: either
nothing qualified yet (accumulator untouched), or the accumulator holds a
qualifying object of `seen` with its score, maximal among the qualifying
objects of `seen`. -/
def goodAcc (startedAt : Nat) (seen : List GFile) (acc : Option GFile × ℚ) : Prop :=
  (acc = (none, 0) ∧ ∀ f ∈ seen, isLoopCandidate startedAt f = false) ∨
  (∃ b, acc.1 = some b ∧ b ∈ seen ∧ isLoopCandidate startedAt b = true ∧
    acc.2 = matchScore startedAt b.timeCreated ∧
    ∀ g ∈ seen, isLoopCandidate startedAt g = true →
      matchScore startedAt g.timeCreated ≤ matchScore startedAt b.timeCreated)

/-- The condition under which `handleSuccessfulGeneration` invokes the
input-image cleanup (`video.inputImage && video.inputImage.gcsUri`). -/
def wantsCleanup (j : Job) : Bool :=
  match j.inputImage with
  | some img =>
    match img.gcsUri with
    | some u => u != ""
    | none => false
  | none => false

/-- Completeness of the metadata table: every listed object has readable
metadata (the storage service is consistent). -/
def metaComplete (s : Storage) : Bool :=
  s.files.all (fun f => (s.getMetadata f.name).isSome)

/-- Check that a job's transient input image (if any) does not live under
the output listing directory, so that its cleanup cannot disturb the bucket
heuristic. -/
def inputOutsideOutputs (j : Job) : Bool :=
  match j.inputImage with
  | some img =>
    match img.gcsUri with
    | some u => !(underOutputDir (gsObjectPath u))
    | none => true
  | none => true

/-- Agreement of a storage value with a reference storage on everything the
bucket heuristic and the completion handler of a sweep consult: the listing
under the output directory, and the metadata of objects under it. -/
def StorAgree (s0 st : Storage) : Prop :=
  st.files.filter (fun f => underOutputDir f.name)
      = s0.files.filter (fun f => underOutputDir f.name) ∧
  ∀ p : String, underOutputDir p = true →
    st.getMetadata p = s0.getMetadata p

/-- The per-job result of the recovery sweep, phrased against the reference
storage: a bucket hit is completed through the handler, a miss leaves the
job alone. -/
def sweepOutcome (s0 : Storage) (now : Nat) (j : Job) : Job :=
  match checkVideoInBucket s0 j with
  | some uri => (handleSuccessfulGeneration s0 now j (mockSuccessStatus uri)).job
  | none => j

/-- The whole-store transform the recovery sweep amounts to. -/
def sweepMap (s0 : Storage) (now : Nat) (j : Job) : Job :=
  if j.status = Status.processing then sweepOutcome s0 now j else j

/-- A storage value with no objects at all. -/
def emptyStorage : Storage := { files := [], meta := [] }

/-- A generated output object in the bucket, created at time 3000. -/
def outFile : GFile := { name := "generated-videos/out-1.mp4", timeCreated := 3000 }

/-- A storage value holding the generated output object and its metadata. -/
def storageWithOutput : Storage :=
  { files := [outFile],
    meta := [("generated-videos/out-1.mp4",
      { size := 5, contentType := some "video/mp4" })] }

/-- A transient input image reference. -/
def inImg : InputImage :=
  { gcsUri := some "gs://bn/input-images/in-1.jpg", mimetype := some "image/jpeg" }

/-- A job in `processing` (started at time 1000) holding an operation
name. -/
def jobProcessing : Job :=
  { user := 1, isPrivate := true, status := Status.processing,
    video := VideoArtifact.empty,
    operation :=
      { name := some "projects/op-1", done := false, response := none, error := none },
    inputImage := none,
    processingInfo :=
      { startedAt := some 1000, completedAt := none, errorMessage := none },
    views := 0 }

/-- The processing job with a transient input image attached. -/
def jobProcessingImg : Job := { jobProcessing with inputImage := some inImg }

/-- A storage value holding both the generated output object and the
transient input image object. -/
def storageWithBoth : Storage :=
  { files := [outFile, { name := "input-images/in-1.jpg", timeCreated := 500 }],
    meta := [("generated-videos/out-1.mp4",
      { size := 5, contentType := some "video/mp4" })] }

/-- A fresh job in `pending`, as created by the controller. -/
def jobPending : Job :=
  { user := 1, isPrivate := true, status := Status.pending,
    video := VideoArtifact.empty, operation := OperationRec.initial,
    inputImage := none,
    processingInfo :=
      { startedAt := none, completedAt := none, errorMessage := none },
    views := 0 }

/-- A poll environment whose provider never reports `done` and whose bucket
never holds a candidate. -/
def envNeverDone : PollEnv :=
  { opStatus := fun _ => some { done := false, response := none, error := none },
    storageAt := fun _ => emptyStorage,
    timeAt := fun t => 2000 + t }

/-- A poll environment whose provider reports `done` with error message
`"X"` at every query. -/
def envProviderError : PollEnv :=
  { opStatus := fun _ =>
      some { done := true, response := none, error := some { message := some "X" } },
    storageAt := fun _ => emptyStorage,
    timeAt := fun t => 2000 + t }

/-- The job state after one iteration of the poll loop against
`envProviderError`: the received status merged into `operation`, the job
marked `failed` with the provider's message. -/
def jobFailedX : Job :=
  { jobProcessing with
    status := Status.failed,
    operation :=
      { name := some "projects/op-1", done := true, response := none,
        error := some { message := some "X" } },
    processingInfo :=
      { startedAt := some 1000, completedAt := none, errorMessage := some "X" } }

/-- A poll environment that reports the provider error `"X"` at the first
query, then suffers a transport error while the bucket already holds the
output object. -/
def envErrorThenBucket : PollEnv :=
  { opStatus := fun t =>
      if t = 0 then
        some { done := true, response := none, error := some { message := some "X" } }
      else none,
    storageAt := fun _ => storageWithOutput,
    timeAt := fun t => 2000 + t }

/-- The job `envErrorThenBucket` produces: completed via the bucket
fallback at tick 1 (time 2001) with the provider failure message still in
place. -/
def jobCompletedStaleError : Job :=
  { jobFailedX with
    status := Status.completed,
    video :=
      { url := some { path := "generated-videos/out-1.mp4", expires := 2001 + sevenDaysMs },
        urlExpiry := some (2001 + sevenDaysMs),
        filename := some "out-1.mp4",
        size := some 5,
        gcsUri := some "gs://bn/generated-videos/out-1.mp4",
        contentType := some "video/mp4" },
    processingInfo :=
      { startedAt := some 1000, completedAt := some 2001, errorMessage := some "X" } }

/-- A submission environment whose provider accepts the request and returns
an operation name. -/
def envSubmitOk : ProcessEnv :=
  { submit :=
      Except.ok { operationName := some "projects/op-1", done := false, response := none },
    now0 := 900,
    poll := envNeverDone,
    maxAttempts := 3,
    fuel := 10 }

/-- The persisted state `processVideoGeneration` reaches before polling:
`processing`, started at 900 — and, because the submission result is stored
under the key `operationName` which the schema drops, with `operation.name`
still unset. -/
def jobStarted : Job :=
  { jobPending with
    status := Status.processing,
    processingInfo :=
      { startedAt := some 900, completedAt := none, errorMessage := none } }

/-- The success status the poller would hand over for the sample output
object. -/
def sampleSuccess : OperationStatus := mockSuccessStatus (mkGsUri outFile.name)

/-- First invocation of the completion handler on the image-conditioned
processing job (at time 2000). -/
def firstHSG : HSGOut :=
  handleSuccessfulGeneration storageWithBoth 2000 jobProcessingImg sampleSuccess

/-- Second invocation of the completion handler on the already-completed
job with the same success payload (at time 3000). -/
def secondHSG : HSGOut :=
  handleSuccessfulGeneration firstHSG.storage 3000 firstHSG.job sampleSuccess

/-- A second `processing` job whose start time (5000) lies after the sample
output object's creation time, so the bucket heuristic finds no candidate
for it. -/
def jobProcessingLate : Job :=
  { jobProcessing with
    processingInfo :=
      { startedAt := some 5000, completedAt := none, errorMessage := none } }

theorem matchScore_pos (a t : Nat) : 0 < matchScore a t := by
  unfold matchScore
  apply div_pos one_pos
  have h : (0 : ℚ) ≤ ((((t : Int) - (a : Int)).natAbs : Nat) : ℚ) := Nat.cast_nonneg _
  linarith

theorem matchScore_antitone (a : Nat) {d₁ d₂ : Nat} (h : d₁ ≤ d₂) :
    matchScore a (a + d₂) ≤ matchScore a (a + d₁) := by
  unfold matchScore
  have e : ∀ d : Nat, (((a + d : Nat) : Int) - (a : Int)).natAbs = d := by
    intro d
    omega
  rw [e d₁, e d₂]
  have h1 : (0 : ℚ) < (d₁ : ℚ) + 1 := by positivity
  have h2 : ((d₁ : ℚ) + 1) ≤ ((d₂ : ℚ) + 1) := by
    have := (Nat.cast_le (α := ℚ)).mpr h
    linarith
  exact one_div_le_one_div_of_le h1 h2

theorem goodAcc_step (startedAt : Nat) (seen : List GFile) (acc : Option GFile × ℚ)
    (f : GFile) (h : goodAcc startedAt seen acc) :
    goodAcc startedAt (seen ++ [f]) (bestStep startedAt acc f) := by
  unfold bestStep
  by_cases hv : isVideoFileName f.name
  · by_cases ht : startedAt ≤ f.timeCreated
    · have hcand : isLoopCandidate startedAt f = true := by
        unfold isLoopCandidate
        simp [hv, ht]
      by_cases hlt : acc.2 < matchScore startedAt f.timeCreated
      · simp only [hv, ht, if_true, hlt, if_pos, decide_True]
        right
        refine ⟨f, rfl, by simp, hcand, rfl, ?_⟩
        intro g hg hgc
        rcases List.mem_append.mp hg with hg | hg
        · rcases h with ⟨hacc, hnone⟩ | ⟨b, hb1, hb2, hb3, hb4, hb5⟩
          · exact absurd hgc (by simp [hnone g hg])
          · have := hb5 g hg hgc
            have hacc2 := hb4
            calc matchScore startedAt g.timeCreated
                ≤ acc.2 := by rw [hacc2]; exact this
              _ ≤ matchScore startedAt f.timeCreated := le_of_lt hlt
        · simp at hg
          subst hg
          exact le_refl _
      · rcases h with ⟨hacc, hnone⟩ | ⟨b, hb1, hb2, hb3, hb4, hb5⟩
        · exfalso
          apply hlt
          rw [hacc]
          exact matchScore_pos startedAt f.timeCreated
        · simp only [hv, ht, if_true, decide_True]
          rw [if_neg hlt]
          right
          refine ⟨b, hb1, List.mem_append.mpr (Or.inl hb2), hb3, hb4, ?_⟩
          intro g hg hgc
          rcases List.mem_append.mp hg with hg | hg
          · exact hb5 g hg hgc
          · simp at hg
            subst hg
            rw [← hb4]
            exact le_of_not_lt hlt
    · have hcand : isLoopCandidate startedAt f = false := by
        unfold isLoopCandidate
        simp [ht]
      simp only [hv, if_true]
      rw [if_neg ht]
      rcases h with ⟨hacc, hnone⟩ | ⟨b, hb1, hb2, hb3, hb4, hb5⟩
      · left
        refine ⟨hacc, ?_⟩
        intro g hg
        rcases List.mem_append.mp hg with hg | hg
        · exact hnone g hg
        · simp at hg
          subst hg
          exact hcand
      · right
        refine ⟨b, hb1, List.mem_append.mpr (Or.inl hb2), hb3, hb4, ?_⟩
        intro g hg hgc
        rcases List.mem_append.mp hg with hg | hg
        · exact hb5 g hg hgc
        · simp at hg
          subst hg
          rw [hcand] at hgc
          exact absurd hgc (by simp)
  · have hcand : isLoopCandidate startedAt f = false := by
      unfold isLoopCandidate
      simp [hv]
    rw [if_neg hv]
    rcases h with ⟨hacc, hnone⟩ | ⟨b, hb1, hb2, hb3, hb4, hb5⟩
    · left
      refine ⟨hacc, ?_⟩
      intro g hg
      rcases List.mem_append.mp hg with hg | hg
      · exact hnone g hg
      · simp at hg
        subst hg
        exact hcand
    · right
      refine ⟨b, hb1, List.mem_append.mpr (Or.inl hb2), hb3, hb4, ?_⟩
      intro g hg hgc
      rcases List.mem_append.mp hg with hg | hg
      · exact hb5 g hg hgc
      · simp at hg
        subst hg
        rw [hcand] at hgc
        exact absurd hgc (by simp)

theorem goodAcc_foldl (startedAt : Nat) :
    ∀ (l seen : List GFile) (acc : Option GFile × ℚ),
      goodAcc startedAt seen acc →
      goodAcc startedAt (seen ++ l) (l.foldl (bestStep startedAt) acc)
  | [], seen, acc, h => by simpa using h
  | f :: l, seen, acc, h => by
    have step := goodAcc_step startedAt seen acc f h
    have ih := goodAcc_foldl startedAt l (seen ++ [f]) (bestStep startedAt acc f) step
    simpa [List.append_assoc] using ih

theorem bestFold_good (startedAt : Nat) (l : List GFile) :
    goodAcc startedAt l (bestFold startedAt l) := by
  have h0 : goodAcc startedAt [] (none, 0) := by
    left
    exact ⟨rfl, by simp⟩
  simpa using goodAcc_foldl startedAt l [] (none, 0) h0

theorem bestFold_none_iff (startedAt : Nat) (l : List GFile) :
    (bestFold startedAt l).1 = none ↔ ∀ f ∈ l, isLoopCandidate startedAt f = false := by
  rcases bestFold_good startedAt l with ⟨hacc, hnone⟩ | ⟨b, hb1, hb2, hb3, _, _⟩
  · constructor
    · intro _
      exact hnone
    · intro _
      rw [hacc]
  · constructor
    · intro hcontra
      rw [hb1] at hcontra
      exact absurd hcontra (by simp)
    · intro hall
      have := hall b hb2
      rw [hb3] at this
      exact absurd this (by simp)

theorem bestFold_some_spec (startedAt : Nat) (l : List GFile) (b : GFile)
    (h : (bestFold startedAt l).1 = some b) :
    b ∈ l ∧ isLoopCandidate startedAt b = true ∧
      ∀ g ∈ l, isLoopCandidate startedAt g = true →
        matchScore startedAt g.timeCreated ≤ matchScore startedAt b.timeCreated := by
  rcases bestFold_good startedAt l with ⟨hacc, _⟩ | ⟨b', hb1, hb2, hb3, _, hb5⟩
  · rw [hacc] at h
    exact absurd h (by simp)
  · rw [hb1] at h
    injection h with h
    subst h
    exact ⟨hb2, hb3, hb5⟩

theorem isCandidate_eq (startedAt : Nat) (f : GFile) :
    isCandidate startedAt f =
      (underOutputDir f.name && isLoopCandidate startedAt f) := by
  unfold isCandidate isLoopCandidate
  rw [Bool.and_assoc]

theorem checkVideoInBucket_eq_none_iff (storage : Storage) (j : Job) (startedAt : Nat)
    (h : j.processingInfo.startedAt = some startedAt) :
    checkVideoInBucket storage j = none ↔
      ∀ f ∈ storage.files, isCandidate startedAt f = false := by
  unfold checkVideoInBucket
  rw [h]
  simp only
  constructor
  · intro hres f hf
    rcases hb : (bestFold startedAt (storage.files.filter (fun f => underOutputDir f.name))).1
      with _ | b
    · have hall := (bestFold_none_iff startedAt _).mp hb
      rw [isCandidate_eq]
      by_cases hund : underOutputDir f.name
      · have hmem : f ∈ storage.files.filter (fun f => underOutputDir f.name) :=
          List.mem_filter.mpr ⟨hf, hund⟩
        rw [hund, hall f hmem]
        simp
      · simp [Bool.and_eq_false_iff]
        intro hcontra
        exact absurd hcontra hund
    · rw [hb] at hres
      exact absurd hres (by simp)
  · intro hall
    have hnone : (bestFold startedAt (storage.files.filter (fun f => underOutputDir f.name))).1
        = none := by
      rw [bestFold_none_iff]
      intro f hf
      rcases List.mem_filter.mp hf with ⟨hmem, hund⟩
      have := hall f hmem
      rw [isCandidate_eq, hund] at this
      simpa using this
    rw [hnone]

theorem checkVideoInBucket_eq_some_spec (storage : Storage) (j : Job) (startedAt : Nat)
    (uri : String) (h : j.processingInfo.startedAt = some startedAt)
    (hu : checkVideoInBucket storage j = some uri) :
    ∃ f, f ∈ storage.files ∧ isCandidate startedAt f = true ∧ uri = mkGsUri f.name ∧
      ∀ g ∈ storage.files, isCandidate startedAt g = true →
        matchScore startedAt g.timeCreated ≤ matchScore startedAt f.timeCreated := by
  unfold checkVideoInBucket at hu
  rw [h] at hu
  simp only at hu
  rcases hb : (bestFold startedAt (storage.files.filter (fun f => underOutputDir f.name))).1
    with _ | b
  · rw [hb] at hu
    exact absurd hu (by simp)
  · rw [hb] at hu
    injection hu with hu
    rcases bestFold_some_spec startedAt _ b hb with ⟨hmem, hcand, hmax⟩
    rcases List.mem_filter.mp hmem with ⟨hmem', hund⟩
    refine ⟨b, hmem', ?_, hu.symm, ?_⟩
    · rw [isCandidate_eq, hund, hcand]
      rfl
    · intro g hg hgc
      rw [isCandidate_eq] at hgc
      simp only [Bool.and_eq_true] at hgc
      exact hmax g (List.mem_filter.mpr ⟨hg, hgc.1⟩) hgc.2

/-- C3: for every job with `processingInfo.startedAt` set and every bucket
listing, `checkVideoInBucket` considers exactly the objects under the
output directory created at or after `startedAt` whose name matches the
expected video extension, scores each inversely proportionally to the
distance between its creation timestamp and `startedAt`
(`1 / (timeDiff + 1)`, antitone in the distance), returns the `gs://` URI
of a highest-scoring candidate, and returns `none` — not an error — when
nothing qualifies. -/
theorem c3_bucket_reconciliation (storage : Storage) (j : Job) (startedAt : Nat)
    (h : j.processingInfo.startedAt = some startedAt) :
    (checkVideoInBucket storage j = none ↔
      ∀ f ∈ storage.files, isCandidate startedAt f = false) ∧
    (∀ uri, checkVideoInBucket storage j = some uri →
      ∃ f, f ∈ storage.files ∧ isCandidate startedAt f = true ∧ uri = mkGsUri f.name ∧
        ∀ g ∈ storage.files, isCandidate startedAt g = true →
          matchScore startedAt g.timeCreated ≤ matchScore startedAt f.timeCreated) ∧
    (∀ d₁ d₂ : Nat, d₁ ≤ d₂ →
      matchScore startedAt (startedAt + d₂) ≤ matchScore startedAt (startedAt + d₁)) := by
  refine ⟨checkVideoInBucket_eq_none_iff storage j startedAt h, ?_, ?_⟩
  · intro uri hu
    exact checkVideoInBucket_eq_some_spec storage j startedAt uri h hu
  · intro d₁ d₂ hd
    exact matchScore_antitone startedAt hd

/-- Witness for C3 at a concrete job and bucket. -/
theorem c3_bucket_reconciliation_witness :
    jobProcessing.processingInfo.startedAt = some 1000 ∧
    ((checkVideoInBucket storageWithOutput jobProcessing = none ↔
      ∀ f ∈ storageWithOutput.files, isCandidate 1000 f = false) ∧
    (∀ uri, checkVideoInBucket storageWithOutput jobProcessing = some uri →
      ∃ f, f ∈ storageWithOutput.files ∧ isCandidate 1000 f = true ∧ uri = mkGsUri f.name ∧
        ∀ g ∈ storageWithOutput.files, isCandidate 1000 g = true →
          matchScore 1000 g.timeCreated ≤ matchScore 1000 f.timeCreated) ∧
    (∀ d₁ d₂ : Nat, d₁ ≤ d₂ →
      matchScore 1000 (1000 + d₂) ≤ matchScore 1000 (1000 + d₁))) :=
  ⟨by decide, c3_bucket_reconciliation storageWithOutput jobProcessing 1000 (by decide)⟩

/-- C10: for every job whose status is not `processing`,
`forceCompletionCheck` leaves the job record and the storage entirely
unchanged (no status transition, no artifact write, no cleanup) and
answers with the job's current status; the bucket is not consulted — the
answer is identical for every storage value. -/
theorem c10_force_check_frame (now : Nat) (storage : Storage) (j : Job)
    (h : j.status ≠ Status.processing) :
    forceCompletionCheck now storage (some j) =
      (some j, storage, ForceResult.notProcessing j.status) ∧
    ∀ storage' : Storage, (forceCompletionCheck now storage' (some j)).2.2 =
      (forceCompletionCheck now storage (some j)).2.2 := by
  have e : ∀ st : Storage, forceCompletionCheck now st (some j) =
      (some j, st, ForceResult.notProcessing j.status) := by
    intro st
    simp only [forceCompletionCheck]
    rw [if_pos h]
  exact ⟨e storage, fun s' => by rw [e s', e storage]⟩

/-- Witness for C10 on a pending job. -/
theorem c10_force_check_frame_witness :
    jobPending.status ≠ Status.processing ∧
    (forceCompletionCheck 5 storageWithOutput (some jobPending) =
      (some jobPending, storageWithOutput, ForceResult.notProcessing jobPending.status) ∧
    ∀ storage' : Storage, (forceCompletionCheck 5 storage' (some jobPending)).2.2 =
      (forceCompletionCheck 5 storageWithOutput (some jobPending)).2.2) :=
  ⟨by decide, c10_force_check_frame 5 storageWithOutput jobPending (by decide)⟩

/-- C7: for every job handed to the completion handler with a success
payload whose output URI resolves to readable storage metadata, the
handler persists the artifact — durable location, 7-day signed URL and its
expiry, filename, size, content type — sets `status` to `completed` and
records `processingInfo.completedAt`, without raising. -/
theorem c7_completion_handler (storage : Storage) (now : Nat) (j : Job)
    (st : OperationStatus) (r : OpResponse) (uri : String) (md : FileMeta)
    (hr : st.response = some r) (hu : jsOrOpt r.videoUri r.outputUri = some uri)
    (hmd : storage.getMetadata (gsObjectPath uri) = some md) :
    (handleSuccessfulGeneration storage now j st).thrown = none ∧
    (handleSuccessfulGeneration storage now j st).job.status = Status.completed ∧
    (handleSuccessfulGeneration storage now j st).job.video.gcsUri = some uri ∧
    (handleSuccessfulGeneration storage now j st).job.video.url =
      some (getSignedUrl (gsObjectPath uri) (now + sevenDaysMs)) ∧
    (handleSuccessfulGeneration storage now j st).job.video.urlExpiry =
      some (now + sevenDaysMs) ∧
    (handleSuccessfulGeneration storage now j st).job.video.size = some md.size ∧
    (handleSuccessfulGeneration storage now j st).job.video.contentType =
      some (jsOr md.contentType "video/mp4") ∧
    (handleSuccessfulGeneration storage now j st).job.video.filename =
      some (basename (gsObjectPath uri)) ∧
    (handleSuccessfulGeneration storage now j st).job.processingInfo.completedAt =
      some now := by
  rcases hjin : j.inputImage with _ | img
  · simp [handleSuccessfulGeneration, hr, hu, hmd, Job.updateStatus, hjin]
  · rcases higu : img.gcsUri with _ | iuri
    · simp [handleSuccessfulGeneration, hr, hu, hmd, Job.updateStatus, hjin, higu]
    · by_cases hne : iuri = ""
      · simp [handleSuccessfulGeneration, hr, hu, hmd, Job.updateStatus, hjin, higu, hne]
      · simp [handleSuccessfulGeneration, hr, hu, hmd, Job.updateStatus, hjin, higu, hne]

/-- Witness for C7 at a concrete success payload and bucket object. -/
theorem c7_completion_handler_witness :
    sampleSuccess.response = some { videoUri := some (mkGsUri outFile.name), outputUri := none } ∧
    jsOrOpt (some (mkGsUri outFile.name)) none = some (mkGsUri outFile.name) ∧
    storageWithOutput.getMetadata (gsObjectPath (mkGsUri outFile.name)) =
      some { size := 5, contentType := some "video/mp4" } ∧
    ((handleSuccessfulGeneration storageWithOutput 2000 jobProcessing sampleSuccess).thrown = none ∧
    (handleSuccessfulGeneration storageWithOutput 2000 jobProcessing sampleSuccess).job.status
      = Status.completed ∧
    (handleSuccessfulGeneration storageWithOutput 2000 jobProcessing sampleSuccess).job.video.gcsUri
      = some (mkGsUri outFile.name) ∧
    (handleSuccessfulGeneration storageWithOutput 2000 jobProcessing sampleSuccess).job.video.url
      = some (getSignedUrl (gsObjectPath (mkGsUri outFile.name)) (2000 + sevenDaysMs)) ∧
    (handleSuccessfulGeneration storageWithOutput 2000 jobProcessing sampleSuccess).job.video.urlExpiry
      = some (2000 + sevenDaysMs) ∧
    (handleSuccessfulGeneration storageWithOutput 2000 jobProcessing sampleSuccess).job.video.size
      = some (5 : Nat) ∧
    (handleSuccessfulGeneration storageWithOutput 2000 jobProcessing sampleSuccess).job.video.contentType
      = some (jsOr (some "video/mp4") "video/mp4") ∧
    (handleSuccessfulGeneration storageWithOutput 2000 jobProcessing sampleSuccess).job.video.filename
      = some (basename (gsObjectPath (mkGsUri outFile.name))) ∧
    (handleSuccessfulGeneration storageWithOutput 2000 jobProcessing sampleSuccess).job.processingInfo.completedAt
      = some 2000) :=
  ⟨by decide, by decide, by decide,
    c7_completion_handler storageWithOutput 2000 jobProcessing sampleSuccess
      { videoUri := some (mkGsUri outFile.name), outputUri := none }
      (mkGsUri outFile.name) { size := 5, contentType := some "video/mp4" }
      (by decide) (by decide) (by decide)⟩

/-- C2 counterexample: running the completion handler a second time with
the same success payload on the already-`completed` job is not a no-op —
it re-invokes the transient-input cleanup and changes the persisted
artifact (fresh signed URL expiry) and `completedAt`, refuting the claimed
idempotence / conditional-update guard. -/
theorem c2_counterexample :
    firstHSG.job.status = Status.completed ∧
    firstHSG.cleanupInvoked = true ∧ firstHSG.deletedInput = true ∧
    secondHSG.cleanupInvoked = true ∧
    secondHSG.job.video ≠ firstHSG.job.video ∧
    secondHSG.job.processingInfo.completedAt ≠ firstHSG.job.processingInfo.completedAt := by
  decide

/-- C2 (amended): the completion handler has no conditional status guard:
invoked on a job that is already `completed`, with the same resolvable
success payload, it proceeds anyway — overwriting the artifact with a
freshly signed URL and expiry, resetting `processingInfo.completedAt`, and
re-invoking the transient-input cleanup; the second cleanup performs no
storage delete only because the input object no longer exists. An update
finding the job already terminal is applied, not skipped. -/
theorem c2_unguarded_completion (storage : Storage) (now : Nat) (j : Job)
    (st : OperationStatus) (r : OpResponse) (uri : String) (md : FileMeta)
    (img : InputImage) (iuri : String)
    (_hstatus : j.status = Status.completed)
    (hr : st.response = some r) (hu : jsOrOpt r.videoUri r.outputUri = some uri)
    (hmd : storage.getMetadata (gsObjectPath uri) = some md)
    (himg : j.inputImage = some img) (hiu : img.gcsUri = some iuri) (hne : iuri ≠ "")
    (hgone : storage.objectExists (gsObjectPath iuri) = false) :
    (handleSuccessfulGeneration storage now j st).job.status = Status.completed ∧
    (handleSuccessfulGeneration storage now j st).job.video.url =
      some (getSignedUrl (gsObjectPath uri) (now + sevenDaysMs)) ∧
    (handleSuccessfulGeneration storage now j st).job.video.urlExpiry =
      some (now + sevenDaysMs) ∧
    (handleSuccessfulGeneration storage now j st).job.processingInfo.completedAt =
      some now ∧
    (handleSuccessfulGeneration storage now j st).cleanupInvoked = true ∧
    (handleSuccessfulGeneration storage now j st).deletedInput = false := by
  simp [handleSuccessfulGeneration, hr, hu, hmd, Job.updateStatus, himg, hiu, hne,
    cleanupTemporaryImage, hgone]

/-- Witness for C2's amended statement: the second invocation of the
handler on the completed sample job. -/
theorem c2_unguarded_completion_witness :
    firstHSG.job.status = Status.completed ∧
    sampleSuccess.response = some { videoUri := some (mkGsUri outFile.name), outputUri := none } ∧
    jsOrOpt (some (mkGsUri outFile.name)) none = some (mkGsUri outFile.name) ∧
    firstHSG.storage.getMetadata (gsObjectPath (mkGsUri outFile.name)) =
      some { size := 5, contentType := some "video/mp4" } ∧
    firstHSG.job.inputImage = some inImg ∧
    inImg.gcsUri = some "gs://bn/input-images/in-1.jpg" ∧
    "gs://bn/input-images/in-1.jpg" ≠ "" ∧
    firstHSG.storage.objectExists (gsObjectPath "gs://bn/input-images/in-1.jpg") = false ∧
    ((handleSuccessfulGeneration firstHSG.storage 3000 firstHSG.job sampleSuccess).job.status
      = Status.completed ∧
    (handleSuccessfulGeneration firstHSG.storage 3000 firstHSG.job sampleSuccess).job.video.url
      = some (getSignedUrl (gsObjectPath (mkGsUri outFile.name)) (3000 + sevenDaysMs)) ∧
    (handleSuccessfulGeneration firstHSG.storage 3000 firstHSG.job sampleSuccess).job.video.urlExpiry
      = some (3000 + sevenDaysMs) ∧
    (handleSuccessfulGeneration firstHSG.storage 3000 firstHSG.job sampleSuccess).job.processingInfo.completedAt
      = some 3000 ∧
    (handleSuccessfulGeneration firstHSG.storage 3000 firstHSG.job sampleSuccess).cleanupInvoked
      = true ∧
    (handleSuccessfulGeneration firstHSG.storage 3000 firstHSG.job sampleSuccess).deletedInput
      = false) :=
  ⟨by decide, by decide, by decide, by decide, by decide, by decide, by decide, by decide,
    c2_unguarded_completion firstHSG.storage 3000 firstHSG.job sampleSuccess
      { videoUri := some (mkGsUri outFile.name), outputUri := none }
      (mkGsUri outFile.name) { size := 5, contentType := some "video/mp4" }
      inImg "gs://bn/input-images/in-1.jpg"
      (by decide) (by decide) (by decide) (by decide) (by decide) (by decide) (by decide)
      (by decide)⟩

/-- C6: reading a completed job's artifact whose `urlExpiry` is strictly in
the past makes `getVideoData` regenerate a signed URL from the durable
`gcsUri`, persist the new `url` and a new `urlExpiry` strictly later than
the previous one, and answer with the fresh URL — never the old expired
one. -/
theorem c6_signed_url_refresh (now userId : Nat) (j : Job) (u : SignedUrl)
    (e : Nat) (g : String)
    (_hstatus : j.status = Status.completed)
    (howner : j.user = userId)
    (hurl : j.video.url = some u)
    (hexp : j.video.urlExpiry = some e)
    (hpast : e < now)
    (hgcs : j.video.gcsUri = some g) (hgne : g ≠ "")
    (huexp : u.expires ≤ e) :
    (getVideoData now userId j).2 =
      VideoDataResult.redirect (some (getSignedUrl (gsObjectPath g) (now + sevenDaysMs)))
        (contentTypeOr j.video.contentType) j.video.filename j.video.size ∧
    (getVideoData now userId j).1.video.url =
      some (getSignedUrl (gsObjectPath g) (now + sevenDaysMs)) ∧
    (getVideoData now userId j).1.video.urlExpiry = some (now + sevenDaysMs) ∧
    e < now + sevenDaysMs ∧
    getSignedUrl (gsObjectPath g) (now + sevenDaysMs) ≠ u := by
  have hne : getSignedUrl (gsObjectPath g) (now + sevenDaysMs) ≠ u := by
    intro hcontra
    have : (getSignedUrl (gsObjectPath g) (now + sevenDaysMs)).expires = u.expires := by
      rw [hcontra]
    unfold getSignedUrl at this
    simp only at this
    omega
  have hlt : e < now + sevenDaysMs := by
    unfold sevenDaysMs
    omega
  refine ⟨?_, ?_, ?_, hlt, hne⟩ <;>
    simp [getVideoData, refreshSignedUrl, howner, hurl, hexp, hpast, hgcs, hgne]

/-- Witness for C6 on a concrete completed job with an expired URL. -/
theorem c6_signed_url_refresh_witness :
    firstHSG.job.status = Status.completed ∧
    firstHSG.job.user = 1 ∧
    firstHSG.job.video.url = some (getSignedUrl "generated-videos/out-1.mp4" (2000 + sevenDaysMs)) ∧
    firstHSG.job.video.urlExpiry = some (2000 + sevenDaysMs) ∧
    2000 + sevenDaysMs < 2000 + sevenDaysMs + 9000 ∧
    firstHSG.job.video.gcsUri = some (mkGsUri outFile.name) ∧
    mkGsUri outFile.name ≠ "" ∧
    (getSignedUrl "generated-videos/out-1.mp4" (2000 + sevenDaysMs)).expires ≤ 2000 + sevenDaysMs ∧
    ((getVideoData (2000 + sevenDaysMs + 9000) 1 firstHSG.job).2 =
      VideoDataResult.redirect
        (some (getSignedUrl (gsObjectPath (mkGsUri outFile.name))
          (2000 + sevenDaysMs + 9000 + sevenDaysMs)))
        (contentTypeOr firstHSG.job.video.contentType)
        firstHSG.job.video.filename firstHSG.job.video.size ∧
    (getVideoData (2000 + sevenDaysMs + 9000) 1 firstHSG.job).1.video.url =
      some (getSignedUrl (gsObjectPath (mkGsUri outFile.name))
        (2000 + sevenDaysMs + 9000 + sevenDaysMs)) ∧
    (getVideoData (2000 + sevenDaysMs + 9000) 1 firstHSG.job).1.video.urlExpiry =
      some (2000 + sevenDaysMs + 9000 + sevenDaysMs) ∧
    2000 + sevenDaysMs < 2000 + sevenDaysMs + 9000 + sevenDaysMs ∧
    getSignedUrl (gsObjectPath (mkGsUri outFile.name))
        (2000 + sevenDaysMs + 9000 + sevenDaysMs) ≠
      getSignedUrl "generated-videos/out-1.mp4" (2000 + sevenDaysMs)) :=
  ⟨by decide, by decide, by decide, by decide, by decide, by decide, by decide, by decide,
    c6_signed_url_refresh (2000 + sevenDaysMs + 9000) 1 firstHSG.job
      (getSignedUrl "generated-videos/out-1.mp4" (2000 + sevenDaysMs))
      (2000 + sevenDaysMs) (mkGsUri outFile.name)
      (by decide) (by decide) (by decide) (by decide) (by decide) (by decide) (by decide)
      (by decide)⟩

/-- C1 (evaluation at the failing input): with an attempt budget of 3, an
operation that never reports `done` and a bucket that never yields a
candidate, the poll loop exhausts its budget and returns without any
terminal write — the job is left in `processing` with no error message.
The `failed` / `"Operation timed out"` write the claim describes never
happens on this path: in the source it sits only in the loop's `catch`
branch, which this error-free run never enters. -/
theorem c1_timeout_never_marked :
    pollForCompletion envNeverDone 3 10 (some jobProcessing) =
      some (some jobProcessing, PollOutcome.loopExited) ∧
    jobProcessing.status = Status.processing ∧
    jobProcessing.processingInfo.errorMessage = none := by
  decide

theorem pollIter_providerError_fix (t : Nat) :
    pollIterTry envProviderError t (some jobFailedX) = TryResult.exc (some jobFailedX) "X" :=
  rfl

theorem pollLoop_providerError_diverges (fuel : Nat) :
    ∀ t, pollLoop envProviderError 3 fuel 0 t (some jobFailedX) = none := by
  induction fuel with
  | zero => intro t; rfl
  | succ n ih =>
    intro t
    simp only [pollLoop, pollIter_providerError_fix]
    norm_num
    exact ih (t + 1)

/-- C4 (evaluation at the failing input): when the queried status reports
`done=true` with error message `"X"`, the iteration does mark the job
`failed` with the provider's message verbatim — but polling does not stop:
the `throw` meant to abort the loop lands in the loop's own `catch`, which
(with `attempts` still below `maxAttempts - 1`) just sleeps and retries
without ever incrementing `attempts`, so with a budget of 3 the loop never
terminates. -/
theorem c4_provider_error_keeps_polling :
    pollIterTry envProviderError 0 (some jobProcessing) =
      TryResult.exc (some jobFailedX) "X" ∧
    jobFailedX.status = Status.failed ∧
    jobFailedX.processingInfo.errorMessage = some "X" ∧
    ∀ fuel, pollForCompletion envProviderError 3 fuel (some jobProcessing) = none := by
  refine ⟨by decide, by decide, by decide, ?_⟩
  intro fuel
  cases fuel with
  | zero => rfl
  | succ n =>
    show pollLoop envProviderError 3 (n + 1) 0 0 (some jobProcessing) = none
    have h1 : pollIterTry envProviderError 0 (some jobProcessing) =
        TryResult.exc (some jobFailedX) "X" := by decide
    simp only [pollLoop, h1]
    norm_num
    exact pollLoop_providerError_diverges n 1

/-- C8 (evaluation at the failing input): a successful submission marks the
job `processing` before any poll attempt, but the operation handle is never
persisted — `generateVideo` returns it under the key `operationName`, which
the schema's `operation` subdocument does not declare, so the assignment
`video.operation = operation` drops it. Every persisted `processing` state,
including the one the poll loop starts from, has `operation.name = none`,
refuting the claim that the handle is non-null from the moment the job is
`processing`. -/
theorem c8_handle_never_persisted :
    processVideoGeneration envSubmitOk jobPending =
      { persisted := [jobStarted, jobStarted], pollStart := some jobStarted,
        final := some jobStarted } ∧
    jobPending.status = Status.pending ∧
    jobStarted.status = Status.processing ∧
    jobStarted.operation.name = none := by
  decide

theorem pollLoop_step_finished (env : PollEnv) (max fuel attempts tick : Nat)
    (jdb j' : Option Job) (h : pollIterTry env tick jdb = TryResult.finished j')
    (ha : attempts < max) :
    pollLoop env max (fuel + 1) attempts tick jdb =
      some (j', PollOutcome.completedBreak) := by
  simp only [pollLoop, h]
  rw [if_pos ha]

theorem pollLoop_step_exc_continue (env : PollEnv) (max fuel attempts tick : Nat)
    (jdb j' : Option Job) (m : String)
    (h : pollIterTry env tick jdb = TryResult.exc j' m) (ha : attempts < max)
    (hb : ¬ (max - 1 ≤ attempts)) :
    pollLoop env max (fuel + 1) attempts tick jdb =
      pollLoop env max fuel attempts (tick + 1) j' := by
  simp only [pollLoop, h]
  rw [if_pos ha, if_neg hb]

theorem bestFold_outFile : (bestFold 1000 [outFile]).1 = some outFile := by
  unfold bestFold
  simp only [List.foldl]
  unfold bestStep
  rw [if_pos (show isVideoFileName outFile.name = true by decide)]
  rw [if_pos (show (1000 : Nat) ≤ outFile.timeCreated by decide)]
  rw [if_pos (show ((none : Option GFile), (0 : ℚ)).2 <
    matchScore 1000 outFile.timeCreated from matchScore_pos 1000 outFile.timeCreated)]

theorem cvb_storageWithOutput_jobFailedX :
    checkVideoInBucket storageWithOutput jobFailedX = some (mkGsUri outFile.name) := by
  unfold checkVideoInBucket
  rw [show jobFailedX.processingInfo.startedAt = some 1000 from rfl]
  simp only
  rw [show storageWithOutput.files.filter (fun f => underOutputDir f.name) = [outFile]
    by decide]
  rw [bestFold_outFile]

theorem pollIter_errorThenBucket_1 :
    pollIterTry envErrorThenBucket 1 (some jobFailedX) =
      TryResult.finished (some jobCompletedStaleError) := by
  have e1 : pollIterTry envErrorThenBucket 1 (some jobFailedX) =
      pollBucketPhase envErrorThenBucket 1 jobFailedX := rfl
  rw [e1]
  unfold pollBucketPhase
  rw [show envErrorThenBucket.storageAt 1 = storageWithOutput from rfl]
  rw [cvb_storageWithOutput_jobFailedX]
  decide

/-- C5 (evaluation at the failing input): the claimed biconditionals are
not an invariant of the orchestrator. Starting from a clean `processing`
job (no artifact, no error message), one faithful poll run — provider
reports `done` with error `"X"` at the first query (job marked `failed`,
loop keeps going because the abort is swallowed by the loop's `catch`),
transport blip at the second query, bucket fallback finds the output — ends
with a job whose `status` is `completed`, whose artifact is populated, and
whose `processingInfo.errorMessage` is still `"X"`: completion never clears
the error message, violating "errorMessage is populated iff failed". -/
theorem c5_invariant_violated :
    jobProcessing.processingInfo.errorMessage = none ∧
    jobProcessing.video.url = none ∧
    pollForCompletion envErrorThenBucket 3 10 (some jobProcessing) =
      some (some jobCompletedStaleError, PollOutcome.completedBreak) ∧
    jobCompletedStaleError.status = Status.completed ∧
    jobCompletedStaleError.video.url.isSome = true ∧
    jobCompletedStaleError.processingInfo.errorMessage = some "X" := by
  refine ⟨by decide, by decide, ?_, by decide, by decide, by decide⟩
  have h1 : pollIterTry envErrorThenBucket 0 (some jobProcessing) =
      TryResult.exc (some jobFailedX) "X" := by decide
  calc pollForCompletion envErrorThenBucket 3 10 (some jobProcessing)
      = pollLoop envErrorThenBucket 3 10 0 0 (some jobProcessing) := rfl
    _ = pollLoop envErrorThenBucket 3 9 0 1 (some jobFailedX) :=
        pollLoop_step_exc_continue envErrorThenBucket 3 9 0 0
          (some jobProcessing) (some jobFailedX) "X" h1 (by norm_num) (by norm_num)
    _ = some (some jobCompletedStaleError, PollOutcome.completedBreak) :=
        pollLoop_step_finished envErrorThenBucket 3 8 0 1 (some jobFailedX)
          (some jobCompletedStaleError) pollIter_errorThenBucket_1 (by norm_num)

theorem replaceFirstAux_of_isPrefixOf (pat s : List Char) (h : pat.isPrefixOf s = true) :
    replaceFirstAux pat s = s.drop pat.length := by
  cases s with
  | nil => simp [replaceFirstAux, h]
  | cons c rest => simp [replaceFirstAux, h]

theorem gsObjectPath_mkGsUri (n : String) : gsObjectPath (mkGsUri n) = n := by
  unfold gsObjectPath mkGsUri
  rw [String.data_append ("gs://" ++ BUCKET_NAME ++ "/") n]
  rw [replaceFirstAux_of_isPrefixOf _ _
    (List.isPrefixOf_iff_prefix.mpr (List.prefix_append _ _))]
  rw [List.drop_left]

theorem mkGsUri_ne_empty (n : String) : mkGsUri n ≠ "" := by
  intro h
  have hd := congrArg String.data h
  unfold mkGsUri at hd
  rw [String.data_append] at hd
  have h2 : ("gs://" ++ BUCKET_NAME ++ "/").data = [] := (List.append_eq_nil.mp hd).1
  exact absurd h2 (by decide)

theorem cvb_congr (s0 st : Storage) (j : Job)
    (h : st.files.filter (fun f => underOutputDir f.name)
        = s0.files.filter (fun f => underOutputDir f.name)) :
    checkVideoInBucket st j = checkVideoInBucket s0 j := by
  unfold checkVideoInBucket
  rcases hs : j.processingInfo.startedAt with _ | a
  · rfl
  · simp only
    rw [h]

theorem filter_under_delete (p : String) (hp : underOutputDir p = false) :
    ∀ l : List GFile,
      (l.filter (fun f => f.name != p)).filter (fun f => underOutputDir f.name)
        = l.filter (fun f => underOutputDir f.name)
  | [] => rfl
  | f :: l => by
    by_cases hfp : f.name = p
    · simp [List.filter_cons, hfp, hp, filter_under_delete p hp l]
    · simp [List.filter_cons, hfp, filter_under_delete p hp l]

theorem lookup_filter_ne (p q : String) (hq : q ≠ p) :
    ∀ l : List (String × FileMeta),
      (l.filter (fun e => e.1 != p)).lookup q = l.lookup q
  | [] => rfl
  | e :: l => by
    obtain ⟨k, v⟩ := e
    by_cases hkp : k = p
    · subst hkp
      have hqk : (q == k) = false := beq_eq_false_iff_ne.mpr hq
      simp [List.filter_cons, List.lookup, hqk, lookup_filter_ne k q hq l]
    · simp [List.filter_cons, List.lookup, hkp, lookup_filter_ne p q hq l]

theorem storAgree_refl (s : Storage) : StorAgree s s := ⟨rfl, fun _ _ => rfl⟩

theorem storAgree_delete (s0 st : Storage) (p : String)
    (h : StorAgree s0 st) (hp : underOutputDir p = false) :
    StorAgree s0 (st.deleteObject p) := by
  constructor
  · show ((st.files.filter (fun f => f.name != p)).filter (fun f => underOutputDir f.name)) = _
    rw [filter_under_delete p hp st.files, h.1]
  · intro q hq
    have hqp : q ≠ p := by
      intro hcontra
      rw [hcontra, hp] at hq
      exact absurd hq (by decide)
    show ((st.meta.filter (fun e => e.1 != p)).lookup q) = s0.getMetadata q
    rw [lookup_filter_ne p q hqp st.meta]
    exact h.2 q hq

theorem cvb_storAgree (s0 st : Storage) (j : Job) (h : StorAgree s0 st) :
    checkVideoInBucket st j = checkVideoInBucket s0 j :=
  cvb_congr s0 st j h.1

theorem cvb_some_startedAt (s : Storage) (j : Job) (uri : String)
    (h : checkVideoInBucket s j = some uri) :
    ∃ a, j.processingInfo.startedAt = some a := by
  unfold checkVideoInBucket at h
  rcases hs : j.processingInfo.startedAt with _ | a
  · rw [hs] at h
    exact absurd h (by simp)
  · exact ⟨a, rfl⟩

theorem updateStatus_completed_status (j : Job) (now : Nat) :
    (Job.updateStatus j Status.completed now none).status = Status.completed := by
  simp [Job.updateStatus]

theorem hsg_success_fields (storage : Storage) (now : Nat) (j : Job)
    (st : OperationStatus) (r : OpResponse) (uri : String) (md : FileMeta)
    (hr : st.response = some r) (hu : jsOrOpt r.videoUri r.outputUri = some uri)
    (hmd : storage.getMetadata (gsObjectPath uri) = some md) :
    (handleSuccessfulGeneration storage now j st).thrown = none ∧
    (handleSuccessfulGeneration storage now j st).job =
      Job.updateStatus
        { j with video :=
            { j.video with
              gcsUri := some uri,
              url := some (getSignedUrl (gsObjectPath uri) (now + sevenDaysMs)),
              urlExpiry := some (now + sevenDaysMs),
              filename := some (basename (gsObjectPath uri)),
              size := some md.size,
              contentType := some (jsOr md.contentType "video/mp4") } }
        Status.completed now none ∧
    ((handleSuccessfulGeneration storage now j st).storage = storage ∨
      ∃ p, (handleSuccessfulGeneration storage now j st).storage = storage.deleteObject p ∧
        ∃ img iuri, j.inputImage = some img ∧ img.gcsUri = some iuri ∧
          p = gsObjectPath iuri) := by
  rcases hjin : j.inputImage with _ | img
  · refine ⟨?_, ?_, Or.inl ?_⟩ <;>
      simp [handleSuccessfulGeneration, hr, hu, hmd, Job.updateStatus, hjin]
  · rcases higu : img.gcsUri with _ | iuri
    · refine ⟨?_, ?_, Or.inl ?_⟩ <;>
        simp [handleSuccessfulGeneration, hr, hu, hmd, Job.updateStatus, hjin, higu]
    · by_cases hne : iuri = ""
      · refine ⟨?_, ?_, Or.inl ?_⟩ <;>
          simp [handleSuccessfulGeneration, hr, hu, hmd, Job.updateStatus, hjin, higu, hne]
      · by_cases hex : storage.objectExists (gsObjectPath iuri)
        · refine ⟨?_, ?_, Or.inr ⟨gsObjectPath iuri, ?_, img, iuri, rfl, higu, rfl⟩⟩ <;>
            simp [handleSuccessfulGeneration, hr, hu, hmd, Job.updateStatus, hjin, higu,
              hne, cleanupTemporaryImage, hex]
        · refine ⟨?_, ?_, Or.inl ?_⟩ <;>
            simp [handleSuccessfulGeneration, hr, hu, hmd, Job.updateStatus, hjin, higu,
              hne, cleanupTemporaryImage, hex]

theorem hsg_mock_spec (s0 st : Storage) (now : Nat) (j : Job) (uri : String)
    (hagree : StorAgree s0 st) (hm : metaComplete s0 = true)
    (hio : inputOutsideOutputs j = true)
    (hcvb : checkVideoInBucket s0 j = some uri) :
    (handleSuccessfulGeneration st now j (mockSuccessStatus uri)).thrown = none ∧
    (handleSuccessfulGeneration st now j (mockSuccessStatus uri)).job =
      (handleSuccessfulGeneration s0 now j (mockSuccessStatus uri)).job ∧
    StorAgree s0 (handleSuccessfulGeneration st now j (mockSuccessStatus uri)).storage ∧
    (handleSuccessfulGeneration s0 now j (mockSuccessStatus uri)).job.status =
      Status.completed := by
  obtain ⟨startedAt, hs⟩ := cvb_some_startedAt s0 j uri hcvb
  obtain ⟨f, hf, hcand, huri, _⟩ :=
    checkVideoInBucket_eq_some_spec s0 j startedAt uri hs hcvb
  have hpath : gsObjectPath uri = f.name := by
    rw [huri]
    exact gsObjectPath_mkGsUri f.name
  have hunder : underOutputDir f.name = true := by
    rw [isCandidate_eq] at hcand
    exact (Bool.and_eq_true _ _ ▸ hcand).1
  have hmd0 : ∃ md, s0.getMetadata f.name = some md := by
    have hall := List.all_eq_true.mp hm f hf
    simpa [Option.isSome_iff_exists] using hall
  obtain ⟨md, hmd⟩ := hmd0
  have hmdst : st.getMetadata (gsObjectPath uri) = some md := by
    rw [hpath, hagree.2 f.name hunder, hmd]
  have hmds0 : s0.getMetadata (gsObjectPath uri) = some md := by
    rw [hpath, hmd]
  have hresp : (mockSuccessStatus uri).response =
      some { videoUri := some uri, outputUri := none } := rfl
  have hjs : jsOrOpt (some uri) (none : Option String) = some uri := by
    have : uri ≠ "" := by
      rw [huri]
      exact mkGsUri_ne_empty f.name
    simp [jsOrOpt, this]
  obtain ⟨ht1, hj1, hst1⟩ :=
    hsg_success_fields st now j (mockSuccessStatus uri) _ uri md hresp hjs hmdst
  obtain ⟨ht2, hj2, _⟩ :=
    hsg_success_fields s0 now j (mockSuccessStatus uri) _ uri md hresp hjs hmds0
  refine ⟨ht1, by rw [hj1, hj2], ?_, by rw [hj2]; exact updateStatus_completed_status _ _⟩
  rcases hst1 with heq | ⟨p, heq, img, iuri, himg, hiu, hp⟩
  · rw [heq]
    exact hagree
  · rw [heq]
    apply storAgree_delete s0 st p hagree
    have : inputOutsideOutputs j = !(underOutputDir (gsObjectPath iuri)) := by
      simp [inputOutsideOutputs, himg, hiu]
    rw [this] at hio
    rw [hp]
    cases hu2 : underOutputDir (gsObjectPath iuri)
    · rfl
    · rw [hu2] at hio
      exact absurd hio (by decide)

theorem sweepJob_spec (s0 st : Storage) (now : Nat) (j : Job)
    (hagree : StorAgree s0 st) (hm : metaComplete s0 = true)
    (hio : inputOutsideOutputs j = true) :
    (sweepJob now st j).1 = sweepOutcome s0 now j ∧
    StorAgree s0 (sweepJob now st j).2.1 ∧
    (sweepJob now st j).2.2 = (checkVideoInBucket s0 j).isSome := by
  unfold sweepJob sweepOutcome
  rw [cvb_storAgree s0 st j hagree]
  rcases hc : checkVideoInBucket s0 j with _ | uri
  · exact ⟨rfl, hagree, rfl⟩
  · obtain ⟨ht, hj, hst, _⟩ := hsg_mock_spec s0 st now j uri hagree hm hio hc
    simp only
    exact ⟨hj, hst, by rw [ht]; rfl⟩

theorem sweepGo_spec (s0 : Storage) (now : Nat) (hm : metaComplete s0 = true) :
    ∀ (jobs : List Job) (st : Storage), StorAgree s0 st →
      (∀ j ∈ jobs, inputOutsideOutputs j = true) →
      (sweepGo now jobs st).1 = jobs.map (sweepMap s0 now) ∧
      StorAgree s0 (sweepGo now jobs st).2.1 ∧
      (sweepGo now jobs st).2.2 =
        jobs.countP (fun j => decide (j.status = Status.processing) &&
          (checkVideoInBucket s0 j).isSome) := by
  intro jobs
  induction jobs with
  | nil =>
    intro st hagree _
    exact ⟨rfl, hagree, rfl⟩
  | cons j rest ih =>
    intro st hagree hio
    have hioj : inputOutsideOutputs j = true := hio j (List.mem_cons_self j rest)
    have hior : ∀ x ∈ rest, inputOutsideOutputs x = true :=
      fun x hx => hio x (List.mem_cons_of_mem j hx)
    by_cases hs : j.status = Status.processing
    · obtain ⟨h1, h2, h3⟩ := sweepJob_spec s0 st now j hagree hm hioj
      obtain ⟨ih1, ih2, ih3⟩ := ih (sweepJob now st j).2.1 h2 hior
      simp only [sweepGo, hs, if_true]
      refine ⟨?_, ih2, ?_⟩
      · rw [ih1, h1, List.map_cons]
        unfold sweepMap
        rw [if_pos hs]
      · rw [ih3, h3, List.countP_cons]
        simp only [hs, decide_True, Bool.true_and]
        cases (checkVideoInBucket s0 j).isSome
        · simp
        · simp
          omega
    · obtain ⟨ih1, ih2, ih3⟩ := ih st hagree hior
      simp only [sweepGo, hs, if_false]
      refine ⟨?_, ih2, ?_⟩
      · rw [ih1, List.map_cons]
        unfold sweepMap
        rw [if_neg hs]
      · rw [ih3, List.countP_cons]
        simp [hs]

/-- C9: running the stuck-job sweep over a job store transforms exactly
the `processing` jobs that have a bucket candidate into `completed` jobs,
leaves every other job unchanged, and returns the pair
(reconciled count, total `processing` examined) — with M the number of
`processing` jobs with a candidate and N the number of `processing` jobs.
Hypotheses: every listed object has readable metadata and no job's
transient input image lives under the output directory (so cleanups cannot
disturb later bucket scans). -/
theorem c9_recovery_sweep (now : Nat) (storage : Storage) (jobs : List Job)
    (hm : metaComplete storage = true)
    (hio : ∀ j ∈ jobs, inputOutsideOutputs j = true) :
    (checkAndCompleteStuckVideos now storage jobs).1 = jobs.map (sweepMap storage now) ∧
    (∀ j ∈ jobs, j.status = Status.processing → (checkVideoInBucket storage j).isSome = true →
      (sweepMap storage now j).status = Status.completed) ∧
    (∀ j : Job, ¬(j.status = Status.processing ∧ (checkVideoInBucket storage j).isSome = true) →
      sweepMap storage now j = j) ∧
    (checkAndCompleteStuckVideos now storage jobs).2.2.1 =
      jobs.countP (fun j => decide (j.status = Status.processing) &&
        (checkVideoInBucket storage j).isSome) ∧
    (checkAndCompleteStuckVideos now storage jobs).2.2.2 =
      jobs.countP (fun j => decide (j.status = Status.processing)) := by
  obtain ⟨h1, _, h3⟩ :=
    sweepGo_spec storage now hm jobs storage (storAgree_refl storage) hio
  refine ⟨h1, ?_, ?_, h3, ?_⟩
  · intro j hj hs hc
    obtain ⟨uri, hcu⟩ := Option.isSome_iff_exists.mp hc
    obtain ⟨_, _, _, hstat⟩ :=
      hsg_mock_spec storage storage now j uri (storAgree_refl storage) hm
        (hio j hj) hcu
    unfold sweepMap
    rw [if_pos hs]
    unfold sweepOutcome
    rw [hcu]
    exact hstat
  · intro j hnot
    unfold sweepMap sweepOutcome
    by_cases hs : j.status = Status.processing
    · rw [if_pos hs]
      rcases hc : checkVideoInBucket storage j with _ | uri
      · rfl
      · exact absurd ⟨hs, by rw [hc]; rfl⟩ hnot
    · rw [if_neg hs]
  · show ((jobs.filter (fun j => decide (j.status = Status.processing))).length) = _
    rw [List.countP_eq_length_filter]

/-- Witness for C9: a store of two `processing` jobs (one with a bucket
candidate, one started after the only output object) and one `pending`
job. -/
theorem c9_recovery_sweep_witness :
    metaComplete storageWithOutput = true ∧
    (∀ j ∈ [jobProcessing, jobProcessingLate, jobPending],
      inputOutsideOutputs j = true) ∧
    ((checkAndCompleteStuckVideos 4000 storageWithOutput
        [jobProcessing, jobProcessingLate, jobPending]).1 =
      [jobProcessing, jobProcessingLate, jobPending].map
        (sweepMap storageWithOutput 4000) ∧
    (∀ j ∈ [jobProcessing, jobProcessingLate, jobPending],
      j.status = Status.processing →
      (checkVideoInBucket storageWithOutput j).isSome = true →
      (sweepMap storageWithOutput 4000 j).status = Status.completed) ∧
    (∀ j : Job, ¬(j.status = Status.processing ∧
        (checkVideoInBucket storageWithOutput j).isSome = true) →
      sweepMap storageWithOutput 4000 j = j) ∧
    (checkAndCompleteStuckVideos 4000 storageWithOutput
        [jobProcessing, jobProcessingLate, jobPending]).2.2.1 =
      [jobProcessing, jobProcessingLate, jobPending].countP
        (fun j => decide (j.status = Status.processing) &&
          (checkVideoInBucket storageWithOutput j).isSome) ∧
    (checkAndCompleteStuckVideos 4000 storageWithOutput
        [jobProcessing, jobProcessingLate, jobPending]).2.2.2 =
      [jobProcessing, jobProcessingLate, jobPending].countP
        (fun j => decide (j.status = Status.processing))) :=
  ⟨by decide,
    by
      intro j hj
      simp only [List.mem_cons, List.not_mem_nil, or_false] at hj
      rcases hj with rfl | rfl | rfl
      · decide
      · decide
      · decide,
    c9_recovery_sweep 4000 storageWithOutput [jobProcessing, jobProcessingLate, jobPending]
      (by decide)
      (by
        intro j hj
        simp only [List.mem_cons, List.not_mem_nil, or_false] at hj
        rcases hj with rfl | rfl | rfl
        · decide
        · decide
        · decide)⟩
